import Mathlib

/-!
# white-puppy: process controller and notification fan-out

A shallow embedding of `src/controller/notification/notification.go` and
`src/controller/process/process.go`.

Conventions of the embedding
* A Go `map[int]V` is an association list with pairwise distinct keys (`GoMap V`).
* A handler is a function from its inputs and the state it reads to the state it
  leaves and the list of calls it made to its collaborators, in program order
  (`Effect`).  Logging calls are not recorded.
* Collaborators outside the two files (the process manager, the bus, the file
  system, `strconv`, `archive/zip`, `path/filepath`) are parameters: theorems
  quantify over every behaviour they may have.
-/

deriving instance DecidableEq for Except

/-- A Go `map[int]V`. -/
abbrev GoMap (V : Type) := AList (fun _ : Int => V)

namespace NotificationController

/-! ## `controller/notification` -/

/-- The constants of package `base` that `Handle` switches on.  Their values are
declared outside the two source files. -/
structure Consts where
  KeyToken : Int
  KeyPassword : Int
  StatusCreated : Int
  StatusUpdated : Int

/-- The fields of `bus.Resource` that the package reads. -/
structure Resource where
  Status : Int
  Id : String
deriving DecidableEq, Repr

/-- Go `url.Values`: query keys with the values given for each. -/
abbrev Values := List (String × List String)

/-- The part of `*http.Request` the package reads: `ParseQuery` is the result of
`url.ParseQuery(r.URL.RawQuery)`. -/
structure Request where
  ParseQuery : Except String Values
deriving DecidableEq

/-- Go `type node struct`. -/
structure node where
  token : String
  r : Request
deriving DecidableEq

/-- Go `type notification struct` (the mutex is not modelled: every operation below is
one critical section, except `notify`, see there). -/
structure notification where
  nodes : GoMap node

/-- Go `type notificationBody struct`. -/
structure notificationBody where
  Key : Int
  Status : Int
  Id : String
deriving DecidableEq, Repr

/-- Calls into `httpserver`. -/
inductive Effect where
  | WebsocketClose (nodeId : Int)
  | WebsocketWriteMessage (nodeId : Int) (data : String)
deriving DecidableEq, Repr

/-- One hexadecimal digit. -/
def hexDigit (d : Nat) : Char :=
  if d < 10 then Char.ofNat (48 + d) else Char.ofNat (87 + d)

/-- The escape `encoding/json` writes for one character of a string. -/
def jsonEscape (c : Char) : String :=
  if c.toNat = 34 then "\\\""
  else if c.toNat = 92 then "\\\\"
  else if c.toNat = 10 then "\\n"
  else if c.toNat = 13 then "\\r"
  else if c.toNat = 9 then "\\t"
  else if c.toNat < 32 ∨ c.toNat = 60 ∨ c.toNat = 62 ∨ c.toNat = 38 then
    "\\u00" ++ String.mk [hexDigit (c.toNat / 16), hexDigit (c.toNat % 16)]
  else if c.toNat = 8232 then "\\u2028"
  else if c.toNat = 8233 then "\\u2029"
  else String.singleton c

/-- The JSON string literal for a Go string. -/
def jsonString (s : String) : String :=
  "\"" ++ String.join (s.toList.map jsonEscape) ++ "\""

/-- Go `json.Marshal(body)` for a `notificationBody`: two integers and a string.  The
encoder has no failing case for this type. -/
def Marshal (body : notificationBody) : Except String String :=
  .ok ("\x7b\"key\":" ++ toString body.Key ++ ",\"status\":" ++ toString body.Status
        ++ ",\"id\":" ++ jsonString body.Id ++ "\x7d")

/-- Go `func (n *notification) notify`.  The ids are collected under the lock and the
messages are written after it is released; the ids written to are those registered
when the snapshot is taken. -/
def notify (n : notification) (key : Int) (resource : Resource) : List Effect :=
  let body : notificationBody := { Key := key, Status := resource.Status, Id := resource.Id }
  match Marshal body with
  | .error _ => []
  | .ok data =>
    let nodes : List Int := n.nodes.keys
    nodes.map (fun nodeId => Effect.WebsocketWriteMessage nodeId data)

/-- Go `func (n *notification) Handle`. -/
def Handle (c : Consts) (n : notification) (key : Int) (value : Resource) : List Effect :=
  if key = c.KeyToken then
    if value.Status = c.StatusCreated ∨ value.Status = c.StatusUpdated then []
    else notify n key value
  else if key = c.KeyPassword then []
  else notify n key value

/-- The loop `for _, v := range n.nodes { if v.token == tokens[0] ... }`: whether a
registered node holds the token. -/
def tokenHeld (n : notification) (token : String) : Bool :=
  n.nodes.entries.any (fun e => e.2.token == token)

/-- Go `func (n *notification) NewConnection`. -/
def NewConnection (n : notification) (nodeId : Int) (r : Request) :
    notification × List Effect :=
  match r.ParseQuery with
  | .error _ => (n, [Effect.WebsocketClose nodeId])
  | .ok form =>
    match form.lookup "token" with
    | none => (n, [Effect.WebsocketClose nodeId])
    | some [] => (n, [Effect.WebsocketClose nodeId])
    | some (token :: _) =>
      if tokenHeld n token then (n, [Effect.WebsocketClose nodeId])
      else ({ nodes := n.nodes.insert nodeId { token := token, r := r } }, [])

/-- Go `func (n *notification) Disconnected`. -/
def Disconnected (n : notification) (nodeId : Int) : notification :=
  { nodes := n.nodes.erase nodeId }

/-- The registry `init` creates: `n.nodes = make(map[int]*node)`. -/
def init : notification := { nodes := ∅ }

/-- A call the websocket server makes on the registry. -/
inductive Call where
  | connect (nodeId : Int) (r : Request)
  | disconnect (nodeId : Int)

/-- The registry after one call. -/
def Call.apply (n : notification) : Call → notification
  | .connect nodeId r => (NewConnection n nodeId r).1
  | .disconnect nodeId => Disconnected n nodeId

/-- The registry after a sequence of calls. -/
def run (n : notification) (calls : List Call) : notification :=
  calls.foldl Call.apply n

/-- No two registered connection ids hold the same token. -/
def TokensDistinct (n : notification) : Prop :=
  ∀ e₁ ∈ n.nodes.entries, ∀ e₂ ∈ n.nodes.entries, e₁.2.token = e₂.2.token → e₁.1 = e₂.1

/-- The request of a connection whose query is `token=<t>`. -/
def requestWithToken (t : String) : Request := { ParseQuery := .ok [("token", [t])] }

end NotificationController

namespace ProcessController

/-! ## `controller/process` -/

/-- Go `http.StatusBadRequest`. -/
def StatusBadRequest : Nat := 400
/-- Go `http.StatusNotFound`. -/
def StatusNotFound : Nat := 404
/-- Go `http.StatusConflict`. -/
def StatusConflict : Nat := 409
/-- Go `http.StatusInternalServerError`. -/
def StatusInternalServerError : Nat := 500
/-- Go `os.ModePerm`, octal 777. -/
def ModePerm : Nat := 511
/-- Go `os.O_WRONLY | os.O_CREATE | os.O_TRUNC` (1, 64 and 512 on Linux). -/
def O_WRONLY_CREATE_TRUNC : Nat := 577

/-- Modelled from the spec: the operation names of package `base` (`base.OperateStart`
and its siblings are declared outside the source files); the spec lists the request
body as `"start"|"stop"|"restart"|"enable"|"disable"`. -/
def OperateStart : String := "start"
/-- Modelled from the spec: `base.OperateStop`. -/
def OperateStop : String := "stop"
/-- Modelled from the spec: `base.OperateRestart`. -/
def OperateRestart : String := "restart"
/-- Modelled from the spec: `base.OperateEnable`. -/
def OperateEnable : String := "enable"
/-- Modelled from the spec: `base.OperateDisable`. -/
def OperateDisable : String := "disable"

/-- Modelled from the spec: the status of an update job, `base.UpdateUpdating`,
`base.UpdateFail` and `base.UpdateSuccess` (declared outside the source files); the spec
gives the status as one of Updating, Fail, Success. -/
inductive UpdateStatus where
  | UpdateUpdating
  | UpdateFail
  | UpdateSuccess
deriving DecidableEq, Repr

/-- Go `base.UpdateNotification`, as the handler fills it.  The counters are Go `int`s
that start at 0 and count archive entries. -/
structure UpdateNotification where
  Status : UpdateStatus
  Current : Nat
  Total : Nat
deriving DecidableEq, Repr

/-- The fields of the model's `process.Process` that the handlers read. -/
structure Process where
  Id : Int
  Dir : String
  Enable : Bool
deriving DecidableEq, Repr

/-- The manager's `processData` (declared outside the source files), as far as the
handlers read it. -/
structure processData where
  process : Process
  isStart : Bool
deriving DecidableEq, Repr

/-- One `*zip.File`: `Name`, `FileInfo().IsDir()` and `Mode()`. -/
structure File where
  Name : String
  IsDir : Bool
  Mode : Nat
deriving DecidableEq, Repr

/-- The answer written to the `http.ResponseWriter`: `httpserver.ResponseError(w, message,
status)` or `httpserver.Response(w, response)` with a `ResponseBody` whose `Result` is `result`. -/
inductive Response where
  | ResponseError (message : String) (status : Nat)
  | Body (result : Bool)
deriving DecidableEq, Repr

/-- Calls that act on a collaborator, in the order made.  Reads (`getProcessData`) and
the `Close` of a file, whose result is discarded, are not recorded. -/
inductive Effect where
  | start (p : processData)
  | stop (p : processData)
  | restart (p : processData)
  | SetProcessEnable (id : Int) (enable : Bool)
  | PublishResource (key status : Int) (id : String) (n : UpdateNotification)
  | MkdirAll (path : String) (perm : Nat)
  | Open (name : String)
  | OpenFile (path : String) (flag perm : Nat)
  | Copy (path : String)
deriving DecidableEq, Repr

/-- The collaborators of the package over a world `W` they read and change.  A call
returns its Go `error` (`none` for `nil`) and the world it leaves. -/
structure Env (W : Type) where
  /-- Go `base.KeyUpdate`. -/
  KeyUpdate : Int
  /-- Go `base.StatusUpdated`. -/
  StatusUpdated : Int
  /-- Go `strconv.Atoi`. -/
  Atoi : String → Except String Int
  /-- Go `zip.NewReader` on the request body; the result is `zipReader.File`. -/
  NewReader : List Nat → Except String (List File)
  /-- Go `filepath.Join`. -/
  Join : String → String → String
  /-- Go `filepath.Dir`. -/
  Dir : String → String
  /-- The manager's `m.getProcessData`. -/
  getProcessData : Int → W → Except String processData
  /-- The manager's `m.start`. -/
  start : processData → W → Option String × W
  /-- The manager's `m.stop`. -/
  stop : processData → W → Option String × W
  /-- The manager's `m.restart`. -/
  restart : processData → W → Option String × W
  /-- The model's `process.SetProcessEnable`. -/
  SetProcessEnable : Int → Bool → W → Option String × W
  /-- Go `bus.PublishResource` (its error is discarded at every call). -/
  PublishResource : Int → Int → String → UpdateNotification → W → W
  /-- Go `os.MkdirAll`. -/
  MkdirAll : String → Nat → W → Option String × W
  /-- Go `file.Open()` on an archive entry. -/
  Open : File → W → Option String × W
  /-- Go `os.OpenFile`. -/
  OpenFile : String → Nat → Nat → W → Option String × W
  /-- Go `io.Copy(outFile, inFile)` followed by the two `Close` calls. -/
  Copy : String → File → W → Option String × W

/-- Go `type putProcessOperation1Request struct`. -/
structure putProcessOperation1Request where
  Operation : String
deriving DecidableEq, Repr

/-- What `HandlePutProcessOperation1` reads of its `*http.Request`: `Body` is the result
of `httpserver.GetRequestBody(r, &request)`, `ProcessId` that of
`httpserver.GetId(r.URL.Path, "process")`. -/
structure OperationRequest where
  Body : Except String putProcessOperation1Request
  ProcessId : String

/-- What a handler leaves: the answer, the world and the calls made. -/
structure Outcome (W : Type) where
  response : Response
  world : W
  effects : List Effect

/-- Go `func HandlePutProcessOperation1`. -/
def HandlePutProcessOperation1 {W : Type} (env : Env W) (r : OperationRequest) (w : W) :
    Outcome W :=
  match r.Body with
  | .error err => ⟨.ResponseError err StatusBadRequest, w, []⟩
  | .ok request =>
    let temp := r.ProcessId
    if temp = "" then ⟨.ResponseError "无效进程ID" StatusBadRequest, w, []⟩
    else
      match env.Atoi temp with
      | .error err => ⟨.ResponseError err StatusBadRequest, w, []⟩
      | .ok processId =>
        match env.getProcessData processId w with
        | .error err => ⟨.ResponseError err StatusNotFound, w, []⟩
        | .ok p =>
          if request.Operation = OperateStart then
            if p.process.Enable then
              ⟨.Body true, (env.start p w).2, [.start p]⟩
            else ⟨.ResponseError "该进程已禁用" StatusBadRequest, w, []⟩
          else if request.Operation = OperateStop then
            ⟨.Body true, (env.stop p w).2, [.stop p]⟩
          else if request.Operation = OperateRestart then
            if p.process.Enable then
              ⟨.Body true, (env.restart p w).2, [.restart p]⟩
            else ⟨.ResponseError "该进程已禁用" StatusBadRequest, w, []⟩
          else if request.Operation = OperateEnable then
            if !p.process.Enable then
              match (env.SetProcessEnable p.process.Id true w).1 with
              | some err =>
                ⟨.ResponseError err StatusInternalServerError,
                  (env.SetProcessEnable p.process.Id true w).2,
                  [.SetProcessEnable p.process.Id true]⟩
              | none =>
                ⟨.Body true, (env.SetProcessEnable p.process.Id true w).2,
                  [.SetProcessEnable p.process.Id true]⟩
            else ⟨.Body true, w, []⟩
          else if request.Operation = OperateDisable then
            if p.process.Enable then
              match (env.SetProcessEnable p.process.Id false w).1 with
              | some err =>
                ⟨.ResponseError err StatusInternalServerError,
                  (env.SetProcessEnable p.process.Id false w).2,
                  [.SetProcessEnable p.process.Id false]⟩
              | none =>
                ⟨.Body true, (env.SetProcessEnable p.process.Id false w).2,
                  [.SetProcessEnable p.process.Id false]⟩
            else ⟨.Body true, w, []⟩
          else ⟨.ResponseError "无效操作" StatusBadRequest, w, []⟩

/-! ### The update guard -/

/-- Go `func (m *updateManager) isUpdating` on `m.updates`. -/
def isUpdating (updates : GoMap String) (processId : Int) : Bool :=
  (updates.lookup processId).isSome

/-- Go `func (m *updateManager) insertUpdate` on `m.updates`. -/
def insertUpdate (updates : GoMap String) (processId : Int) (updateId : String) :
    GoMap String :=
  updates.insert processId updateId

/-- Go `func (m *updateManager) eraseUpdate` on `m.updates`. -/
def eraseUpdate (updates : GoMap String) (processId : Int) : GoMap String :=
  updates.erase processId

/-! ### The update handler and its background task -/

/-- What `HandlePutUpdateFile1` reads of its `*http.Request`: `ProcessId` and `UpdateId`
are the results of `httpserver.GetId(r.URL.Path, "process")` and of
`httpserver.GetId(r.URL.Path, "update-file")`, `Body` that of `ioutil.ReadAll(r.Body)`
(bytes as numbers below 256). -/
structure UpdateFileRequest where
  ProcessId : String
  UpdateId : String
  Body : Except String (List Nat)

/-- The state the update handler and its task share: the collaborators' world and
`um.updates`. -/
structure State (W : Type) where
  world : W
  updates : GoMap String

/-- The variables the closure `go func() { ... }()` captures. -/
structure Task where
  processId : Int
  updateId : String
  files : List File
deriving DecidableEq, Repr

/-- What `HandlePutUpdateFile1` leaves when it returns: the answer, the state, the calls
it made, and the background task it started, if any. -/
structure UpdateOutcome (W : Type) where
  response : Response
  state : State W
  effects : List Effect
  spawned : Option Task

/-- Go `func HandlePutUpdateFile1`, up to and without the body of the `go func`.  The
deferred `r.Body.Close()` acts on the request only and is not recorded. -/
def HandlePutUpdateFile1 {W : Type} (env : Env W) (r : UpdateFileRequest) (st : State W) :
    UpdateOutcome W :=
  let temp := r.ProcessId
  if temp = "" then ⟨.ResponseError "无效进程ID" StatusBadRequest, st, [], none⟩
  else
    match env.Atoi temp with
    | .error err => ⟨.ResponseError err StatusBadRequest, st, [], none⟩
    | .ok processId =>
      if isUpdating st.updates processId then
        ⟨.ResponseError "进程正在升级" StatusConflict, st, [], none⟩
      else
        let updateId := r.UpdateId
        if updateId = "" then ⟨.ResponseError "无效升级文件ID" StatusBadRequest, st, [], none⟩
        else
          match r.Body with
          | .error err => ⟨.ResponseError err StatusInternalServerError, st, [], none⟩
          | .ok buffer =>
            match env.NewReader buffer with
            | .error err => ⟨.ResponseError err StatusInternalServerError, st, [], none⟩
            | .ok files =>
              ⟨.Body true, { st with updates := insertUpdate st.updates processId updateId },
                [], some ⟨processId, updateId, files⟩⟩

/-- The progress of the task's code: whether it is still running (`ok`, false after a
`return` on failure), the captured `notification`, the world and the calls made. -/
structure Progress (W : Type) where
  ok : Bool
  notification : UpdateNotification
  world : W
  effects : List Effect

/-- The statements `notification.Status = base.UpdateFail; return`. -/
def failWith {W : Type} (notification : UpdateNotification) (w : W) (effects : List Effect) :
    Progress W :=
  ⟨false, { notification with Status := .UpdateFail }, w, effects⟩

/-- The statements `notification.Current++; _ = bus.PublishResource(...)` that end a
loop iteration. -/
def advance {W : Type} (env : Env W) (updateId : String) (notification : UpdateNotification)
    (w : W) (effects : List Effect) : Progress W :=
  let n : UpdateNotification := { notification with Current := notification.Current + 1 }
  ⟨true, n, env.PublishResource env.KeyUpdate env.StatusUpdated updateId n w,
    effects ++ [.PublishResource env.KeyUpdate env.StatusUpdated updateId n]⟩

/-- One iteration of `for _, file := range zipReader.File`. -/
def extractFile {W : Type} (env : Env W) (destDir updateId : String) (file : File)
    (notification : UpdateNotification) (w : W) : Progress W :=
  let path := env.Join destDir file.Name
  if file.IsDir then
    let r1 := env.MkdirAll path ModePerm w
    match r1.1 with
    | some _ => failWith notification r1.2 [.MkdirAll path ModePerm]
    | none => advance env updateId notification r1.2 [.MkdirAll path ModePerm]
  else
    let r1 := env.MkdirAll (env.Dir path) ModePerm w
    match r1.1 with
    | some _ => failWith notification r1.2 [.MkdirAll (env.Dir path) ModePerm]
    | none =>
      let r2 := env.Open file r1.2
      match r2.1 with
      | some _ => failWith notification r2.2 [.MkdirAll (env.Dir path) ModePerm, .Open file.Name]
      | none =>
        let r3 := env.OpenFile path O_WRONLY_CREATE_TRUNC file.Mode r2.2
        match r3.1 with
        | some _ =>
          failWith notification r3.2
            [.MkdirAll (env.Dir path) ModePerm, .Open file.Name,
              .OpenFile path O_WRONLY_CREATE_TRUNC file.Mode]
        | none =>
          let r4 := env.Copy path file r3.2
          match r4.1 with
          | some _ =>
            failWith notification r4.2
              [.MkdirAll (env.Dir path) ModePerm, .Open file.Name,
                .OpenFile path O_WRONLY_CREATE_TRUNC file.Mode, .Copy path]
          | none =>
            advance env updateId notification r4.2
              [.MkdirAll (env.Dir path) ModePerm, .Open file.Name,
                .OpenFile path O_WRONLY_CREATE_TRUNC file.Mode, .Copy path]

/-- The loop `for _, file := range zipReader.File { ... }`: it stops at the first
iteration that returns. -/
def extractLoop {W : Type} (env : Env W) (destDir updateId : String) :
    List File → UpdateNotification → W → Progress W
  | [], notification, w => ⟨true, notification, w, []⟩
  | file :: files, notification, w =>
    let one := extractFile env destDir updateId file notification w
    if one.ok then
      let more := extractLoop env destDir updateId files one.notification one.world
      ⟨more.ok, more.notification, more.world, one.effects ++ more.effects⟩
    else one

/-- The statements `if isStart { if err := m.stop(p); err != nil { ... return } }`. -/
def stopIfStarted {W : Type} (env : Env W) (p : processData)
    (notification : UpdateNotification) (w : W) : Progress W :=
  if p.isStart then
    match (env.stop p w).1 with
    | some _ => failWith notification (env.stop p w).2 [.stop p]
    | none => ⟨true, notification, (env.stop p w).2, [.stop p]⟩
  else ⟨true, notification, w, []⟩

/-- The statements after the loop: `if isStart { m.start(p) }` (a failure is only logged)
and `notification.Status = base.UpdateSuccess`. -/
def startIfStarted {W : Type} (env : Env W) (p : processData)
    (notification : UpdateNotification) (w : W) : Progress W :=
  if p.isStart then
    ⟨true, { notification with Status := .UpdateSuccess }, (env.start p w).2, [.start p]⟩
  else ⟨true, { notification with Status := .UpdateSuccess }, w, []⟩

/-- The body of the `go func` between the first `PublishResource` and the deferred
function. -/
def taskBody {W : Type} (env : Env W) (t : Task) (notification : UpdateNotification)
    (w : W) : Progress W :=
  match env.getProcessData t.processId w with
  | .error _ => failWith notification w []
  | .ok p =>
    let stopped := stopIfStarted env p notification w
    if stopped.ok then
      let destDir := p.process.Dir
      let loop := extractLoop env destDir t.updateId t.files stopped.notification stopped.world
      if loop.ok then
        let started := startIfStarted env p loop.notification loop.world
        ⟨true, started.notification, started.world,
          stopped.effects ++ loop.effects ++ started.effects⟩
      else ⟨false, loop.notification, loop.world, stopped.effects ++ loop.effects⟩
    else stopped

/-- The `notification` the task starts with. -/
def initialNotification (t : Task) : UpdateNotification :=
  { Status := .UpdateUpdating, Current := 0, Total := t.files.length }

/-- What the background task leaves: the state and the calls made. -/
structure TaskOutcome (W : Type) where
  state : State W
  effects : List Effect

/-- The `go func() { ... }()` of `HandlePutUpdateFile1`, run to its end: the first
`PublishResource`, the body, then the deferred `PublishResource` and `eraseUpdate`. -/
def updateTask {W : Type} (env : Env W) (t : Task) (st : State W) : TaskOutcome W :=
  let notification := initialNotification t
  let w0 := env.PublishResource env.KeyUpdate env.StatusUpdated t.updateId notification st.world
  let body := taskBody env t notification w0
  let w1 :=
    env.PublishResource env.KeyUpdate env.StatusUpdated t.updateId body.notification body.world
  { state := { world := w1, updates := eraseUpdate st.updates t.processId }
    effects :=
      [.PublishResource env.KeyUpdate env.StatusUpdated t.updateId notification]
        ++ body.effects
        ++ [.PublishResource env.KeyUpdate env.StatusUpdated t.updateId body.notification] }

/-- The notifications published under `updateId`, in order. -/
def published {W : Type} (env : Env W) (updateId : String) : List Effect → List UpdateNotification
  | [] => []
  | .PublishResource key status id n :: rest =>
    if key = env.KeyUpdate ∧ status = env.StatusUpdated ∧ id = updateId then
      n :: published env updateId rest
    else published env updateId rest
  | _ :: rest => published env updateId rest

/-- Whether a call is one to the manager's `m.start`. -/
def Effect.isStart : Effect → Bool
  | .start _ => true
  | _ => false

/-- Whether a call is one to the manager's stop, start or restart primitive. -/
def Effect.isControl : Effect → Bool
  | .start _ => true
  | .stop _ => true
  | .restart _ => true
  | _ => false

/-- Whether a call acts on the file system. -/
def Effect.isFileSystem : Effect → Bool
  | .MkdirAll _ _ => true
  | .OpenFile _ _ _ => true
  | .Copy _ => true
  | _ => false

/-- Whether a call publishes on the bus. -/
def Effect.isPublish : Effect → Bool
  | .PublishResource _ _ _ _ => true
  | _ => false

/-- All the calls one update-file request causes: those of the handler, then those of
the background task it started, run to its end. -/
def requestEffects {W : Type} (env : Env W) (r : UpdateFileRequest) (st : State W) :
    List Effect :=
  let h := HandlePutUpdateFile1 env r st
  match h.spawned with
  | none => h.effects
  | some t => h.effects ++ (updateTask env t h.state).effects

/-! ### Concurrent update requests

`isUpdating` and `insertUpdate` lock `um.mutex` one after the other, so the check and the
insertion of one request are two steps, and steps of other requests may come between. -/

/-- Where one update-file request stands. -/
inductive Pc where
  /-- Before `um.isUpdating(processId)`. -/
  | arrived
  /-- After `um.isUpdating(processId)` returned false, before `um.insertUpdate`. -/
  | checked
  /-- Answered with an error: no task was started. -/
  | refused
  /-- After `um.insertUpdate`: the task is started and has not reached its deferred
  function. -/
  | running
  /-- The task body is over; the deferred `um.eraseUpdate` is still to come. -/
  | finishing
  /-- After `um.eraseUpdate(processId)`. -/
  | released
deriving DecidableEq, Repr

/-- The guard and the requests in flight. -/
structure Guarded where
  updates : GoMap String
  pcs : List Pc

/-- A step of one request, named by its index. -/
inductive Action where
  /-- The call `um.isUpdating(processId)` and the branch on its result. -/
  | check (i : Nat)
  /-- A failed check between the two guard calls (empty update id, unreadable body,
  malformed archive). -/
  | refuse (i : Nat)
  /-- The call `um.insertUpdate(processId, updateId)` and `go func`. -/
  | insert (i : Nat)
  /-- The task body, up to the deferred function. -/
  | pipeline (i : Nat)
  /-- The deferred `um.eraseUpdate(processId)`. -/
  | release (i : Nat)
deriving DecidableEq, Repr

/-- One step.  `reqs` gives the process id and update id of each request. -/
def step (reqs : List (Int × String)) (s : Guarded) : Action → Option Guarded
  | .check i =>
    match reqs.get? i, s.pcs.get? i with
    | some q, some .arrived =>
      some { s with pcs := s.pcs.set i (if isUpdating s.updates q.1 then .refused else .checked) }
    | _, _ => none
  | .refuse i =>
    match reqs.get? i, s.pcs.get? i with
    | some _, some .checked => some { s with pcs := s.pcs.set i .refused }
    | _, _ => none
  | .insert i =>
    match reqs.get? i, s.pcs.get? i with
    | some q, some .checked =>
      some { updates := insertUpdate s.updates q.1 q.2, pcs := s.pcs.set i .running }
    | _, _ => none
  | .pipeline i =>
    match reqs.get? i, s.pcs.get? i with
    | some _, some .running => some { s with pcs := s.pcs.set i .finishing }
    | _, _ => none
  | .release i =>
    match reqs.get? i, s.pcs.get? i with
    | some q, some .finishing =>
      some { updates := eraseUpdate s.updates q.1, pcs := s.pcs.set i .released }
    | _, _ => none

/-- The state `init` leaves (`um.updates = make(map[int]string)`), with every request
still to be served. -/
def Guarded.initial (reqs : List (Int × String)) : Guarded :=
  { updates := ∅, pcs := List.replicate reqs.length .arrived }

/-- A sequence of steps from a state; `none` when a step is not enabled. -/
def exec (reqs : List (Int × String)) : Guarded → List Action → Option Guarded
  | s, [] => some s
  | s, a :: rest =>
    match step reqs s a with
    | none => none
    | some s1 => exec reqs s1 rest

/-- The indices of the requests for `processId` whose task is started and has not yet
released the guard. -/
def activeRuns (reqs : List (Int × String)) (s : Guarded) (processId : Int) : List Nat :=
  (List.range reqs.length).filter fun i =>
    (reqs.get? i).any (fun q => q.1 = processId) &&
      (s.pcs.get? i = some .running || s.pcs.get? i = some .finishing)

/-! ### What the file system answers to a run

The next three definitions do not run the task: they read off the environment what its
file system calls return, in the worlds in which the loop makes them. -/

/-- The first error the environment returns to the calls made for one archive entry from
world `w` (`os.MkdirAll` for a directory; `os.MkdirAll`, `file.Open`, `os.OpenFile` and
`io.Copy` for a file), `none` when every one of them returns `nil`. -/
def entryError {W : Type} (env : Env W) (destDir : String) (file : File) (w : W) :
    Option String :=
  if file.IsDir then (env.MkdirAll (env.Join destDir file.Name) ModePerm w).1
  else
    match (env.MkdirAll (env.Dir (env.Join destDir file.Name)) ModePerm w).1 with
    | some err => some err
    | none =>
      match (env.Open file
          (env.MkdirAll (env.Dir (env.Join destDir file.Name)) ModePerm w).2).1 with
      | some err => some err
      | none =>
        match (env.OpenFile (env.Join destDir file.Name) O_WRONLY_CREATE_TRUNC file.Mode
            (env.Open file
              (env.MkdirAll (env.Dir (env.Join destDir file.Name)) ModePerm w).2).2).1 with
        | some err => some err
        | none =>
          (env.Copy (env.Join destDir file.Name) file
            (env.OpenFile (env.Join destDir file.Name) O_WRONLY_CREATE_TRUNC file.Mode
              (env.Open file
                (env.MkdirAll (env.Dir (env.Join destDir file.Name)) ModePerm w).2).2).2).1

/-- The world the environment is left in by the calls made for one archive entry from
world `w`, none of which failed, and by the publish of the advanced counter `n`. -/
def entryWorld {W : Type} (env : Env W) (destDir updateId : String) (file : File)
    (n : UpdateNotification) (w : W) : W :=
  if file.IsDir then
    env.PublishResource env.KeyUpdate env.StatusUpdated updateId n
      (env.MkdirAll (env.Join destDir file.Name) ModePerm w).2
  else
    env.PublishResource env.KeyUpdate env.StatusUpdated updateId n
      (env.Copy (env.Join destDir file.Name) file
        (env.OpenFile (env.Join destDir file.Name) O_WRONLY_CREATE_TRUNC file.Mode
          (env.Open file
            (env.MkdirAll (env.Dir (env.Join destDir file.Name)) ModePerm w).2).2).2).2

/-- The first error the environment returns to the calls made for the archive entries,
taken in archive order from world `w` with the counter at `n.Current`; `none` when no
call for any entry returns an error. -/
def firstError {W : Type} (env : Env W) (destDir updateId : String) :
    List File → UpdateNotification → W → Option String
  | [], _, _ => none
  | file :: files, n, w =>
    match entryError env destDir file w with
    | some err => some err
    | none =>
      firstError env destDir updateId files { n with Current := n.Current + 1 }
        (entryWorld env destDir updateId file { n with Current := n.Current + 1 } w)

/-! ### A concrete environment -/

/-- The value of a non-empty string of decimal digits. -/
def digitsValue : List Char → Option Nat
  | [] => none
  | cs =>
    cs.foldl
      (fun acc c => acc.bind fun v => if c.isDigit then some (10 * v + (c.toNat - 48)) else none)
      (some 0)

/-- Go `strconv.Atoi` on a 64-bit platform: an optional sign, then decimal digits. -/
def Atoi (s : String) : Except String Int :=
  let cs := s.toList
  let body :=
    if cs.head? = some (Char.ofNat 45) ∨ cs.head? = some (Char.ofNat 43) then cs.tail else cs
  match digitsValue body with
  | none => .error "invalid syntax"
  | some v =>
    if cs.head? = some (Char.ofNat 45) then
      if v ≤ 2 ^ 63 then .ok (-(v : Int)) else .error "value out of range"
    else if v < 2 ^ 63 then .ok (v : Int) else .error "value out of range"

/-- The 22 bytes of a zip archive without entries: the end-of-central-directory record. -/
def emptyArchive : List Nat := [80, 75, 5, 6] ++ List.replicate 18 0

/-- A world for examples: the paths written so far and whether the process runs. -/
structure SampleWorld where
  isStart : Bool
  written : List String
deriving DecidableEq, Repr

/-- An environment for examples.  It has one process, id 1 in directory `/opt/app`;
`startFails` and `stopFails` make the manager's primitives fail; the file system refuses
the paths in `readOnly`; the archive reader knows the empty archive only. -/
def sampleEnv (enable startFails stopFails : Bool) (readOnly : List String) :
    Env SampleWorld where
  KeyUpdate := 9
  StatusUpdated := 2
  Atoi := Atoi
  NewReader := fun buffer =>
    if buffer = emptyArchive then .ok [] else .error "zip: not a valid zip file"
  Join := fun dir name => dir ++ "/" ++ name
  Dir := fun path =>
    String.mk (path.toList.reverse.dropWhile (fun c => c ≠ Char.ofNat 47)).tail.reverse
  getProcessData := fun id w =>
    if id = 1 then .ok ⟨⟨1, "/opt/app", enable⟩, w.isStart⟩ else .error "process not found"
  start := fun _ w => if startFails then (some "start failed", w) else (none, { w with isStart := true })
  stop := fun _ w => if stopFails then (some "stop failed", w) else (none, { w with isStart := false })
  restart := fun _ w =>
    if stopFails then (some "stop failed", w)
    else if startFails then (some "start failed", { w with isStart := false })
    else (none, { w with isStart := true })
  SetProcessEnable := fun _ _ w => (none, w)
  PublishResource := fun _ _ _ _ w => w
  MkdirAll := fun path _ w =>
    if path ∈ readOnly then (some "permission denied", w) else (none, w)
  Open := fun _ w => (none, w)
  OpenFile := fun path _ _ w =>
    if path ∈ readOnly then (some "permission denied", w) else (none, w)
  Copy := fun path _ w => (none, { w with written := w.written ++ [path] })

end ProcessController

namespace NotificationController

/-! ## Lemmas on the registry -/

theorem tokenHeld_eq_true_iff (n : notification) (token : String) :
    tokenHeld n token = true ↔ ∃ e ∈ n.nodes.entries, e.2.token = token := by
  simp [tokenHeld, List.any_eq_true]

theorem tokenHeld_of_lookup (n : notification) (old : Int) (v : node)
    (h : n.nodes.lookup old = some v) : tokenHeld n v.token = true := by
  rw [tokenHeld_eq_true_iff]
  exact ⟨⟨old, v⟩, AList.mem_lookup_iff.mp h, rfl⟩

theorem NewConnection_held (n : notification) (nodeId : Int) (r : Request) (form : Values)
    (token : String) (rest : List String) (hq : r.ParseQuery = .ok form)
    (ht : form.lookup "token" = some (token :: rest)) (hh : tokenHeld n token = true) :
    NewConnection n nodeId r = (n, [Effect.WebsocketClose nodeId]) := by
  simp [NewConnection, hq, ht, hh]

theorem NewConnection_fresh (n : notification) (nodeId : Int) (r : Request) (form : Values)
    (token : String) (rest : List String) (hq : r.ParseQuery = .ok form)
    (ht : form.lookup "token" = some (token :: rest)) (hh : tokenHeld n token = false) :
    NewConnection n nodeId r
      = ({ nodes := n.nodes.insert nodeId { token := token, r := r } }, []) := by
  simp [NewConnection, hq, ht, hh]

/-- Every call to `NewConnection` either leaves the registry as it was or inserts a node
whose token no registered node holds. -/
theorem NewConnection_cases (n : notification) (nodeId : Int) (r : Request) :
    (NewConnection n nodeId r).1 = n ∨
    ∃ token, tokenHeld n token = false ∧
      (NewConnection n nodeId r).1 = { nodes := n.nodes.insert nodeId { token := token, r := r } } := by
  cases hq : r.ParseQuery with
  | error e => left; simp [NewConnection, hq]
  | ok form =>
    cases hl : form.lookup "token" with
    | none => left; simp [NewConnection, hq, hl]
    | some tokens =>
      cases tokens with
      | nil => left; simp [NewConnection, hq, hl]
      | cons token rest =>
        cases hh : tokenHeld n token with
        | true => left; rw [NewConnection_held n nodeId r form token rest hq hl hh]
        | false =>
          right
          exact ⟨token, hh, by rw [NewConnection_fresh n nodeId r form token rest hq hl hh]⟩

theorem TokensDistinct_init : TokensDistinct init := by
  intro e₁ h₁
  simp [init] at h₁

theorem TokensDistinct_insert (n : notification) (nodeId : Int) (nd : node)
    (hn : TokensDistinct n) (hh : tokenHeld n nd.token = false) :
    TokensDistinct { nodes := n.nodes.insert nodeId nd } := by
  have hnot : ∀ e ∈ n.nodes.entries, e.2.token ≠ nd.token := by
    intro e he heq
    have : tokenHeld n nd.token = true := (tokenHeld_eq_true_iff n nd.token).mpr ⟨e, he, heq⟩
    rw [hh] at this
    exact Bool.noConfusion this
  have hsub : ∀ e ∈ List.kerase nodeId n.nodes.entries, e ∈ n.nodes.entries :=
    fun e he => (List.kerase_sublist nodeId n.nodes.entries).subset he
  intro e₁ h₁ e₂ h₂ heq
  simp only [AList.insert_entries, List.mem_cons] at h₁ h₂
  rcases h₁ with rfl | h₁ <;> rcases h₂ with rfl | h₂
  · rfl
  · exact absurd heq.symm (hnot e₂ (hsub e₂ h₂))
  · exact absurd heq (hnot e₁ (hsub e₁ h₁))
  · exact hn e₁ (hsub e₁ h₁) e₂ (hsub e₂ h₂) heq

theorem TokensDistinct_erase (n : notification) (nodeId : Int) (hn : TokensDistinct n) :
    TokensDistinct (Disconnected n nodeId) := by
  have hsub : ∀ e ∈ List.kerase nodeId n.nodes.entries, e ∈ n.nodes.entries :=
    fun e he => (List.kerase_sublist nodeId n.nodes.entries).subset he
  intro e₁ h₁ e₂ h₂ heq
  simp only [Disconnected, AList.erase] at h₁ h₂
  exact hn e₁ (hsub e₁ h₁) e₂ (hsub e₂ h₂) heq

theorem TokensDistinct_apply (n : notification) (c : Call) (hn : TokensDistinct n) :
    TokensDistinct (c.apply n) := by
  cases c with
  | connect nodeId r =>
    rcases NewConnection_cases n nodeId r with h | ⟨token, hh, h⟩
    · simpa [Call.apply, h] using hn
    · simp only [Call.apply, h]
      exact TokensDistinct_insert n nodeId _ hn hh
  | disconnect nodeId => exact TokensDistinct_erase n nodeId hn

theorem TokensDistinct_run (calls : List Call) (n : notification) (hn : TokensDistinct n) :
    TokensDistinct (run n calls) := by
  induction calls generalizing n with
  | nil => exact hn
  | cons c cs ih => exact ih (c.apply n) (TokensDistinct_apply n c hn)

end NotificationController

namespace ProcessController

/-! ## Lemmas on the background task -/

theorem published_append {W : Type} (env : Env W) (updateId : String) (xs ys : List Effect) :
    published env updateId (xs ++ ys) = published env updateId xs ++ published env updateId ys := by
  induction xs with
  | nil => rfl
  | cons x xs ih =>
    cases x <;> simp [published, ih]
    split_ifs <;> simp

theorem published_publish {W : Type} (env : Env W) (updateId : String) (n : UpdateNotification) :
    published env updateId [.PublishResource env.KeyUpdate env.StatusUpdated updateId n] = [n] := by
  simp [published]

/-- One loop iteration either fails, publishing nothing, or publishes the advanced
counter; it never calls the manager. -/
theorem extractFile_cases {W : Type} (env : Env W) (destDir updateId : String) (file : File)
    (n : UpdateNotification) (w : W) :
    ((extractFile env destDir updateId file n w).ok = false ∧
      (extractFile env destDir updateId file n w).notification = { n with Status := .UpdateFail } ∧
      published env updateId (extractFile env destDir updateId file n w).effects = []) ∨
    ((extractFile env destDir updateId file n w).ok = true ∧
      (extractFile env destDir updateId file n w).notification
        = { n with Current := n.Current + 1 } ∧
      published env updateId (extractFile env destDir updateId file n w).effects
        = [{ n with Current := n.Current + 1 }]) := by
  unfold extractFile
  dsimp only
  split_ifs
  · split
    · left; simp [failWith, published]
    · right; simp [advance, published]
  · split
    · left; simp [failWith, published]
    · split
      · left; simp [failWith, published]
      · split
        · left; simp [failWith, published]
        · split
          · left; simp [failWith, published]
          · right; simp [advance, published]

theorem extractFile_no_control {W : Type} (env : Env W) (destDir updateId : String)
    (file : File) (n : UpdateNotification) (w : W) :
    ∀ e ∈ (extractFile env destDir updateId file n w).effects, e.isControl = false := by
  unfold extractFile
  dsimp only
  split_ifs
  · split <;> simp [failWith, advance, Effect.isControl]
  · split
    · simp [failWith, Effect.isControl]
    · split
      · simp [failWith, Effect.isControl]
      · split
        · simp [failWith, Effect.isControl]
        · split <;> simp [failWith, advance, Effect.isControl]

theorem extractLoop_no_control {W : Type} (env : Env W) (destDir updateId : String)
    (files : List File) (n : UpdateNotification) (w : W) :
    ∀ e ∈ (extractLoop env destDir updateId files n w).effects, e.isControl = false := by
  induction files generalizing n w with
  | nil => simp [extractLoop]
  | cons file files ih =>
    intro e he
    unfold extractLoop at he
    dsimp only at he
    split_ifs at he with hok
    · simp only [List.mem_append] at he
      rcases he with he | he
      · exact extractFile_no_control env destDir updateId file n w e he
      · exact ih _ _ e he
    · exact extractFile_no_control env destDir updateId file n w e he

/-- The loop publishes the counters `n.Current + 1, ..., n.Current + j` for the `j`
entries it extracts, and `j` is the number of entries exactly when no iteration fails. -/
theorem extractLoop_progress {W : Type} (env : Env W) (destDir updateId : String)
    (files : List File) (n : UpdateNotification) (w : W) :
    ∃ j, j ≤ files.length ∧
      published env updateId (extractLoop env destDir updateId files n w).effects
        = (List.range j).map (fun i => { n with Current := n.Current + 1 + i }) ∧
      ((extractLoop env destDir updateId files n w).ok = true →
        j = files.length ∧
        (extractLoop env destDir updateId files n w).notification
          = { n with Current := n.Current + j }) ∧
      ((extractLoop env destDir updateId files n w).ok = false →
        j < files.length ∧
        (extractLoop env destDir updateId files n w).notification
          = { n with Current := n.Current + j, Status := .UpdateFail }) := by
  induction files generalizing n w with
  | nil => exact ⟨0, le_refl _, by simp [extractLoop, published], by simp [extractLoop], by simp [extractLoop]⟩
  | cons file files ih =>
    rcases extractFile_cases env destDir updateId file n w with ⟨hok, hn, hp⟩ | ⟨hok, hn, hp⟩
    · refine ⟨0, Nat.zero_le _, ?_, ?_, ?_⟩
      · simp [extractLoop, hok, hp]
      · simp [extractLoop, hok]
      · simp [extractLoop, hok, hn]
    · have ih1 := ih (extractFile env destDir updateId file n w).notification
        (extractFile env destDir updateId file n w).world
      rw [hn] at ih1
      obtain ⟨j, hj, hpub, hT, hF⟩ := ih1
      refine ⟨j + 1, by simpa using hj, ?_, ?_, ?_⟩
      · simp only [extractLoop, hok, if_true, published_append, hp, hn, hpub]
        rw [List.range_succ_eq_map]
        simp only [List.map_cons, List.map_map, Function.comp_def, Nat.add_zero,
          List.singleton_append, List.cons.injEq, true_and]
        apply List.map_congr_left
        intro a _
        simp only [Nat.succ_eq_add_one, Nat.add_assoc, Nat.add_comm 1 a]
      · intro h
        simp only [extractLoop, hok, if_true, hn] at h
        obtain ⟨h1, h2⟩ := hT h
        refine ⟨by simp [h1], ?_⟩
        simp only [extractLoop, hok, if_true, hn, h2]
        simp [Nat.add_assoc, Nat.add_comm 1]
      · intro h
        simp only [extractLoop, hok, if_true, hn] at h
        obtain ⟨h1, h2⟩ := hF h
        refine ⟨by simpa using h1, ?_⟩
        simp only [extractLoop, hok, if_true, hn, h2]
        simp [Nat.add_assoc, Nat.add_comm 1]

/-- One iteration goes on exactly when no call made for the entry returns an error, and
then leaves the world those calls and the publish leave. -/
theorem extractFile_entryError {W : Type} (env : Env W) (destDir updateId : String)
    (file : File) (n : UpdateNotification) (w : W) :
    (entryError env destDir file w = none →
      (extractFile env destDir updateId file n w).ok = true ∧
      (extractFile env destDir updateId file n w).world
        = entryWorld env destDir updateId file { n with Current := n.Current + 1 } w) ∧
    (∀ err, entryError env destDir file w = some err →
      (extractFile env destDir updateId file n w).ok = false) := by
  unfold extractFile entryError entryWorld
  dsimp only
  by_cases hd : file.IsDir = true
  · simp only [hd, if_true]
    cases h1 : (env.MkdirAll (env.Join destDir file.Name) ModePerm w).1 <;>
      simp [failWith, advance]
  · simp only [hd, Bool.false_eq_true, if_false]
    cases h1 : (env.MkdirAll (env.Dir (env.Join destDir file.Name)) ModePerm w).1
    · cases h2 : (env.Open file
          (env.MkdirAll (env.Dir (env.Join destDir file.Name)) ModePerm w).2).1
      · cases h3 : (env.OpenFile (env.Join destDir file.Name) O_WRONLY_CREATE_TRUNC file.Mode
            (env.Open file
              (env.MkdirAll (env.Dir (env.Join destDir file.Name)) ModePerm w).2).2).1
        · cases h4 : (env.Copy (env.Join destDir file.Name) file
              (env.OpenFile (env.Join destDir file.Name) O_WRONLY_CREATE_TRUNC file.Mode
                (env.Open file
                  (env.MkdirAll (env.Dir (env.Join destDir file.Name)) ModePerm w).2).2).2).1 <;>
            simp [failWith, advance]
        · simp [failWith]
      · simp [failWith]
    · simp [failWith]

/-- The loop runs to its end exactly when no call made for any entry returns an error;
it stops at the first entry for which one does. -/
theorem extractLoop_firstError {W : Type} (env : Env W) (destDir updateId : String)
    (files : List File) (n : UpdateNotification) (w : W) :
    (firstError env destDir updateId files n w = none →
      (extractLoop env destDir updateId files n w).ok = true) ∧
    (∀ err, firstError env destDir updateId files n w = some err →
      (extractLoop env destDir updateId files n w).ok = false) := by
  induction files generalizing n w with
  | nil => simp [firstError, extractLoop]
  | cons file files ih =>
    obtain ⟨hnone, hsome⟩ := extractFile_entryError env destDir updateId file n w
    rcases extractFile_cases env destDir updateId file n w with ⟨hok, hn, _⟩ | ⟨hok, hn, _⟩
    · cases he : entryError env destDir file w with
      | none => rw [(hnone he).1] at hok; exact Bool.noConfusion hok
      | some err => simp [firstError, he, extractLoop, hok]
    · cases he : entryError env destDir file w with
      | some err => rw [hsome err he] at hok; exact Bool.noConfusion hok
      | none =>
        have hw := (hnone he).2
        have ih1 := ih { n with Current := n.Current + 1 }
          (entryWorld env destDir updateId file { n with Current := n.Current + 1 } w)
        simp only [firstError, he, extractLoop, hok, if_true, hn, hw]
        exact ih1

theorem isStart_le_isControl (e : Effect) (h : e.isControl = false) : e.isStart = false := by
  cases e <;> simp_all [Effect.isControl, Effect.isStart]

theorem stopIfStarted_published {W : Type} (env : Env W) (updateId : String) (p : processData)
    (n : UpdateNotification) (w : W) :
    published env updateId (stopIfStarted env p n w).effects = [] := by
  unfold stopIfStarted
  split_ifs
  · split <;> simp [failWith, published]
  · simp [published]

theorem stopIfStarted_notification {W : Type} (env : Env W) (p : processData)
    (n : UpdateNotification) (w : W) :
    ((stopIfStarted env p n w).ok = true → (stopIfStarted env p n w).notification = n) ∧
    ((stopIfStarted env p n w).ok = false →
      (stopIfStarted env p n w).notification = { n with Status := .UpdateFail }) := by
  unfold stopIfStarted
  split_ifs
  · split <;> simp [failWith]
  · simp

theorem startIfStarted_published {W : Type} (env : Env W) (updateId : String) (p : processData)
    (n : UpdateNotification) (w : W) :
    published env updateId (startIfStarted env p n w).effects = [] ∧
    (startIfStarted env p n w).notification = { n with Status := .UpdateSuccess } := by
  unfold startIfStarted
  split_ifs <;> simp [published]

/-- The body publishes the counters `1, ..., k` with status Updating and ends with the
counter at `k`, in status Fail, or in status Success with `k` the number of entries. -/
theorem taskBody_progress {W : Type} (env : Env W) (t : Task) (w : W) :
    ∃ k status, k ≤ t.files.length ∧ status ≠ UpdateStatus.UpdateUpdating ∧
      (status = UpdateStatus.UpdateSuccess → k = t.files.length) ∧
      published env t.updateId (taskBody env t (initialNotification t) w).effects
        = (List.range k).map (fun i => ⟨.UpdateUpdating, 1 + i, t.files.length⟩) ∧
      (taskBody env t (initialNotification t) w).notification = ⟨status, k, t.files.length⟩ := by
  unfold taskBody
  cases hp : env.getProcessData t.processId w with
  | error err =>
    exact ⟨0, .UpdateFail, Nat.zero_le _, (by decide), (by intro h; cases h),
      by simp [failWith, published], by simp [failWith, initialNotification]⟩
  | ok p =>
    dsimp only
    obtain ⟨hsT, hsF⟩ := stopIfStarted_notification env p (initialNotification t) w
    have hsP := stopIfStarted_published env t.updateId p (initialNotification t) w
    cases hs : (stopIfStarted env p (initialNotification t) w).ok with
    | false =>
      simp only [Bool.false_eq_true, if_false]
      refine ⟨0, .UpdateFail, Nat.zero_le _, (by decide), (by intro h; cases h), ?_, ?_⟩
      · simp [hsP]
      · rw [hsF hs]; simp [initialNotification]
    | true =>
      simp only [if_true, hsT hs]
      obtain ⟨j, hj, hpub, hT, hF⟩ := extractLoop_progress env p.process.Dir t.updateId t.files
        (initialNotification t) (stopIfStarted env p (initialNotification t) w).world
      cases hl : (extractLoop env p.process.Dir t.updateId t.files (initialNotification t)
          (stopIfStarted env p (initialNotification t) w).world).ok with
      | false =>
        obtain ⟨h1, h2⟩ := hF hl
        simp only [Bool.false_eq_true, if_false]
        refine ⟨j, .UpdateFail, hj, (by decide), (by intro h; cases h), ?_, ?_⟩
        · rw [published_append, hsP, hpub]; simp [initialNotification]
        · rw [h2]; simp [initialNotification]
      | true =>
        obtain ⟨h1, h2⟩ := hT hl
        obtain ⟨hstP, hstN⟩ := startIfStarted_published env t.updateId p
          (extractLoop env p.process.Dir t.updateId t.files (initialNotification t)
            (stopIfStarted env p (initialNotification t) w).world).notification
          (extractLoop env p.process.Dir t.updateId t.files (initialNotification t)
            (stopIfStarted env p (initialNotification t) w).world).world
        simp only [if_true]
        refine ⟨j, .UpdateSuccess, hj, (by decide), fun _ => h1, ?_, ?_⟩
        · rw [published_append, published_append, hsP, hpub, hstP]; simp [initialNotification]
        · rw [hstN, h2]; simp [initialNotification]

/-! ## The operation handler -/

/-- C1: a `start` or a `restart` request on a process whose enable flag is false is
answered with the error "该进程已禁用" (the process is disabled) and status 400, the world
is left as it was and no call is made, so the start or restart primitive is not reached,
whatever the primitives of the environment would do. -/
theorem HandlePutProcessOperation1_disabled {W : Type} (env : Env W) (r : OperationRequest)
    (w : W) (request : putProcessOperation1Request) (processId : Int) (p : processData)
    (hb : r.Body = .ok request) (hid : r.ProcessId ≠ "")
    (ha : env.Atoi r.ProcessId = .ok processId)
    (hp : env.getProcessData processId w = .ok p)
    (hd : p.process.Enable = false)
    (hop : request.Operation = OperateStart ∨ request.Operation = OperateRestart) :
    (HandlePutProcessOperation1 env r w).response
        = .ResponseError "该进程已禁用" StatusBadRequest ∧
      (HandlePutProcessOperation1 env r w).world = w ∧
      (HandlePutProcessOperation1 env r w).effects = [] := by
  rcases hop with hop | hop
  · simp [HandlePutProcessOperation1, hb, hid, ha, hp, hd, hop]
  · have h1 : OperateRestart ≠ OperateStart := by decide
    have h2 : OperateRestart ≠ OperateStop := by decide
    simp [HandlePutProcessOperation1, hb, hid, ha, hp, hd, hop, h1, h2]

/-- The witness of C1: process 1 disabled, request `start`. -/
theorem HandlePutProcessOperation1_disabled_witness :
    (HandlePutProcessOperation1 (sampleEnv false false false [])
        ⟨.ok ⟨"start"⟩, "1"⟩ ⟨false, []⟩).response
        = .ResponseError "该进程已禁用" StatusBadRequest ∧
      (HandlePutProcessOperation1 (sampleEnv false false false [])
        ⟨.ok ⟨"start"⟩, "1"⟩ ⟨false, []⟩).world = ⟨false, []⟩ ∧
      (HandlePutProcessOperation1 (sampleEnv false false false [])
        ⟨.ok ⟨"start"⟩, "1"⟩ ⟨false, []⟩).effects = [] :=
  HandlePutProcessOperation1_disabled (sampleEnv false false false [])
    ⟨.ok ⟨"start"⟩, "1"⟩ ⟨false, []⟩ ⟨"start"⟩ 1 ⟨⟨1, "/opt/app", false⟩, false⟩
    rfl (by decide) (by decide) (by decide) rfl (Or.inl (by decide))

/-- C7, as stated, fails: process 1 is enabled and its start primitive fails, and the
`start` request is answered with the success body, not with an error. -/
theorem HandlePutProcessOperation1_start_failure_hidden :
    ((sampleEnv true true false []).start ⟨⟨1, "/opt/app", true⟩, false⟩ ⟨false, []⟩).1
        = some "start failed" ∧
      (HandlePutProcessOperation1 (sampleEnv true true false [])
        ⟨.ok ⟨"start"⟩, "1"⟩ ⟨false, []⟩).response = .Body true ∧
      ∀ message status,
        (HandlePutProcessOperation1 (sampleEnv true true false [])
          ⟨.ok ⟨"start"⟩, "1"⟩ ⟨false, []⟩).response ≠ .ResponseError message status := by
  refine ⟨by decide, by decide, ?_⟩
  intro message status h
  have h2 : (HandlePutProcessOperation1 (sampleEnv true true false [])
      ⟨.ok ⟨"start"⟩, "1"⟩ ⟨false, []⟩).response = .Body true := by decide
  rw [h2] at h
  cases h

/-- C7, amended: a `start` or `restart` request on an enabled process, and a `stop`
request on any process, calls its primitive once and is answered with the success body
whatever the primitive returns: the primitive's error is discarded. -/
theorem HandlePutProcessOperation1_primitive_result_discarded {W : Type} (env : Env W)
    (r : OperationRequest) (w : W) (request : putProcessOperation1Request) (processId : Int)
    (p : processData)
    (hb : r.Body = .ok request) (hid : r.ProcessId ≠ "")
    (ha : env.Atoi r.ProcessId = .ok processId)
    (hp : env.getProcessData processId w = .ok p) :
    (request.Operation = OperateStart → p.process.Enable = true →
      (HandlePutProcessOperation1 env r w).response = .Body true ∧
      (HandlePutProcessOperation1 env r w).effects = [.start p] ∧
      (HandlePutProcessOperation1 env r w).world = (env.start p w).2) ∧
    (request.Operation = OperateStop →
      (HandlePutProcessOperation1 env r w).response = .Body true ∧
      (HandlePutProcessOperation1 env r w).effects = [.stop p] ∧
      (HandlePutProcessOperation1 env r w).world = (env.stop p w).2) ∧
    (request.Operation = OperateRestart → p.process.Enable = true →
      (HandlePutProcessOperation1 env r w).response = .Body true ∧
      (HandlePutProcessOperation1 env r w).effects = [.restart p] ∧
      (HandlePutProcessOperation1 env r w).world = (env.restart p w).2) := by
  have h1 : OperateRestart ≠ OperateStart := by decide
  have h2 : OperateRestart ≠ OperateStop := by decide
  have h3 : OperateStop ≠ OperateStart := by decide
  refine ⟨?_, ?_, ?_⟩
  · intro hop he
    simp [HandlePutProcessOperation1, hb, hid, ha, hp, he, hop]
  · intro hop
    simp [HandlePutProcessOperation1, hb, hid, ha, hp, hop, h3]
  · intro hop he
    simp [HandlePutProcessOperation1, hb, hid, ha, hp, he, hop, h1, h2]

/-- The witness of C7, amended: process 1 enabled, its start primitive failing. -/
theorem HandlePutProcessOperation1_primitive_result_discarded_witness :
    (HandlePutProcessOperation1 (sampleEnv true true false [])
        ⟨.ok ⟨"start"⟩, "1"⟩ ⟨false, []⟩).response = .Body true ∧
      (HandlePutProcessOperation1 (sampleEnv true true false [])
        ⟨.ok ⟨"start"⟩, "1"⟩ ⟨false, []⟩).effects = [.start ⟨⟨1, "/opt/app", true⟩, false⟩] ∧
      (HandlePutProcessOperation1 (sampleEnv true true false [])
        ⟨.ok ⟨"start"⟩, "1"⟩ ⟨false, []⟩).world
        = ((sampleEnv true true false []).start ⟨⟨1, "/opt/app", true⟩, false⟩ ⟨false, []⟩).2 :=
  (HandlePutProcessOperation1_primitive_result_discarded (sampleEnv true true false [])
    ⟨.ok ⟨"start"⟩, "1"⟩ ⟨false, []⟩ ⟨"start"⟩ 1 ⟨⟨1, "/opt/app", true⟩, false⟩
    rfl (by decide) (by decide) (by decide)).1 (by decide) rfl

/-! ## The update handler -/

/-- C3: when the guard already holds an entry for process id N, an update-file request
for N, with any update id and any body, is answered with status 409 Conflict and does
nothing else: the state (world and guard map, with the first run's update id) is
unchanged, no task is started, and the request causes no call at all (no publish, no
stop or start, no file system call). -/
theorem HandlePutUpdateFile1_conflict {W : Type} (env : Env W) (r : UpdateFileRequest)
    (st : State W) (processId : Int) (first : String)
    (hid : r.ProcessId ≠ "") (ha : env.Atoi r.ProcessId = .ok processId)
    (hu : st.updates.lookup processId = some first) :
    (HandlePutUpdateFile1 env r st).response = .ResponseError "进程正在升级" StatusConflict ∧
      (HandlePutUpdateFile1 env r st).state = st ∧
      (HandlePutUpdateFile1 env r st).state.updates.lookup processId = some first ∧
      (HandlePutUpdateFile1 env r st).spawned = none ∧
      requestEffects env r st = [] := by
  have hi : isUpdating st.updates processId = true := by simp [isUpdating, hu]
  simp [requestEffects, HandlePutUpdateFile1, hid, ha, hi, hu]

/-- The witness of C3: process 1 is being updated under the id `first`. -/
theorem HandlePutUpdateFile1_conflict_witness :
    (HandlePutUpdateFile1 (sampleEnv true false false []) ⟨"1", "second", .ok emptyArchive⟩
        ⟨⟨true, []⟩, insertUpdate ∅ 1 "first"⟩).response
        = .ResponseError "进程正在升级" StatusConflict ∧
      (HandlePutUpdateFile1 (sampleEnv true false false []) ⟨"1", "second", .ok emptyArchive⟩
        ⟨⟨true, []⟩, insertUpdate ∅ 1 "first"⟩).state = ⟨⟨true, []⟩, insertUpdate ∅ 1 "first"⟩ ∧
      (HandlePutUpdateFile1 (sampleEnv true false false []) ⟨"1", "second", .ok emptyArchive⟩
        ⟨⟨true, []⟩, insertUpdate ∅ 1 "first"⟩).state.updates.lookup 1 = some "first" ∧
      (HandlePutUpdateFile1 (sampleEnv true false false []) ⟨"1", "second", .ok emptyArchive⟩
        ⟨⟨true, []⟩, insertUpdate ∅ 1 "first"⟩).spawned = none ∧
      requestEffects (sampleEnv true false false []) ⟨"1", "second", .ok emptyArchive⟩
        ⟨⟨true, []⟩, insertUpdate ∅ 1 "first"⟩ = [] :=
  HandlePutUpdateFile1_conflict (sampleEnv true false false [])
    ⟨"1", "second", .ok emptyArchive⟩ ⟨⟨true, []⟩, insertUpdate ∅ 1 "first"⟩ 1 "first"
    (by decide) (by decide) (by decide)

/-- C4, as stated, fails: the body is empty, which is not a zip archive, and the
request for process 1 is answered with status 500, not with status 400. -/
theorem HandlePutUpdateFile1_malformed_is_500 :
    (sampleEnv true false false []).NewReader [] = .error "zip: not a valid zip file" ∧
      (HandlePutUpdateFile1 (sampleEnv true false false []) ⟨"1", "u1", .ok []⟩
        ⟨⟨true, []⟩, ∅⟩).response
        = .ResponseError "zip: not a valid zip file" StatusInternalServerError ∧
      StatusInternalServerError ≠ StatusBadRequest := by
  decide

/-- C4, amended: when the body does not parse as a zip archive the task is never
started (the state, guard map included, is unchanged and the request causes no call),
and the answer is an error; for a request that passes the earlier checks (a process id
that parses, no update in flight for it, a non-empty update id) the error is the
parser's, with status 500. -/
theorem HandlePutUpdateFile1_malformed {W : Type} (env : Env W) (r : UpdateFileRequest)
    (st : State W) (buffer : List Nat) (err : String)
    (hb : r.Body = .ok buffer) (hz : env.NewReader buffer = .error err) :
    (HandlePutUpdateFile1 env r st).state = st ∧
      (HandlePutUpdateFile1 env r st).spawned = none ∧
      requestEffects env r st = [] ∧
      (∃ message status,
        (HandlePutUpdateFile1 env r st).response = .ResponseError message status) ∧
      (∀ processId, r.ProcessId ≠ "" → env.Atoi r.ProcessId = .ok processId →
        isUpdating st.updates processId = false → r.UpdateId ≠ "" →
        (HandlePutUpdateFile1 env r st).response
          = .ResponseError err StatusInternalServerError) := by
  have key : (HandlePutUpdateFile1 env r st).state = st ∧
      (HandlePutUpdateFile1 env r st).spawned = none ∧
      (HandlePutUpdateFile1 env r st).effects = [] ∧
      (∃ message status,
        (HandlePutUpdateFile1 env r st).response = .ResponseError message status) := by
    by_cases hid : r.ProcessId = ""
    · simp [HandlePutUpdateFile1, hid]
    · cases ha : env.Atoi r.ProcessId with
      | error e => simp [HandlePutUpdateFile1, hid, ha]
      | ok processId =>
        cases hi : isUpdating st.updates processId with
        | true => simp [HandlePutUpdateFile1, hid, ha, hi]
        | false =>
          by_cases hu : r.UpdateId = ""
          · simp [HandlePutUpdateFile1, hid, ha, hi, hu]
          · simp [HandlePutUpdateFile1, hid, ha, hi, hu, hb, hz]
  refine ⟨key.1, key.2.1, ?_, key.2.2.2, ?_⟩
  · simp [requestEffects, key.2.1, key.2.2.1]
  · intro processId hid ha hi hu
    simp [HandlePutUpdateFile1, hid, ha, hi, hu, hb, hz]

/-- The witness of C4, amended: an empty body sent for process 1. -/
theorem HandlePutUpdateFile1_malformed_witness :
    (HandlePutUpdateFile1 (sampleEnv true false false []) ⟨"1", "u1", .ok []⟩
        ⟨⟨true, []⟩, ∅⟩).state = ⟨⟨true, []⟩, ∅⟩ ∧
      (HandlePutUpdateFile1 (sampleEnv true false false []) ⟨"1", "u1", .ok []⟩
        ⟨⟨true, []⟩, ∅⟩).spawned = none ∧
      requestEffects (sampleEnv true false false []) ⟨"1", "u1", .ok []⟩ ⟨⟨true, []⟩, ∅⟩ = [] ∧
      (∃ message status,
        (HandlePutUpdateFile1 (sampleEnv true false false []) ⟨"1", "u1", .ok []⟩
          ⟨⟨true, []⟩, ∅⟩).response = .ResponseError message status) ∧
      (∀ processId, "1" ≠ "" → (sampleEnv true false false []).Atoi "1" = .ok processId →
        isUpdating (∅ : GoMap String) processId = false → "u1" ≠ "" →
        (HandlePutUpdateFile1 (sampleEnv true false false []) ⟨"1", "u1", .ok []⟩
          ⟨⟨true, []⟩, ∅⟩).response
          = .ResponseError "zip: not a valid zip file" StatusInternalServerError) :=
  HandlePutUpdateFile1_malformed (sampleEnv true false false []) ⟨"1", "u1", .ok []⟩
    ⟨⟨true, []⟩, ∅⟩ [] "zip: not a valid zip file" rfl (by decide)

/-! ## The background task -/

/-- C5, as stated, fails: process 1 runs, the stop succeeds, the file system refuses
`/opt/app/a.txt`, and the run ends with the Fail event without a call to start. -/
theorem updateTask_no_start_after_failure :
    (sampleEnv true false false ["/opt/app/a.txt"]).getProcessData 1 ⟨true, []⟩
        = .ok ⟨⟨1, "/opt/app", true⟩, true⟩ ∧
      ((sampleEnv true false false ["/opt/app/a.txt"]).stop
        ⟨⟨1, "/opt/app", true⟩, true⟩ ⟨true, []⟩).1 = none ∧
      (updateTask (sampleEnv true false false ["/opt/app/a.txt"])
        ⟨1, "u1", [⟨"a.txt", false, 420⟩]⟩ ⟨⟨true, []⟩, insertUpdate ∅ 1 "u1"⟩).effects
        = [.PublishResource 9 2 "u1" ⟨.UpdateUpdating, 0, 1⟩,
            .stop ⟨⟨1, "/opt/app", true⟩, true⟩,
            .MkdirAll "/opt/app" 511,
            .Open "a.txt",
            .OpenFile "/opt/app/a.txt" 577 420,
            .PublishResource 9 2 "u1" ⟨.UpdateFail, 0, 1⟩] ∧
      (updateTask (sampleEnv true false false ["/opt/app/a.txt"])
        ⟨1, "u1", [⟨"a.txt", false, 420⟩]⟩
        ⟨⟨true, []⟩, insertUpdate ∅ 1 "u1"⟩).effects.any Effect.isStart = false ∧
      (updateTask (sampleEnv true false false ["/opt/app/a.txt"])
        ⟨1, "u1", [⟨"a.txt", false, 420⟩]⟩
        ⟨⟨true, []⟩, insertUpdate ∅ 1 "u1"⟩).state.world.isStart = false := by
  decide

/-- C5, amended: in a run in which the process was running before the update and the
stop succeeded, start is called, once and right after the extraction loop, exactly when
no call made for an archive entry returns an error, and the final event is then Success;
when the file system (or the archive) returns an error for some entry, the loop stops
there, the run ends with the final event in status Fail and start is not called. -/
theorem updateTask_start_after_full_extraction {W : Type} (env : Env W) (t : Task)
    (st : State W) (p : processData)
    (hp : env.getProcessData t.processId
      (env.PublishResource env.KeyUpdate env.StatusUpdated t.updateId (initialNotification t)
          st.world) = .ok p)
    (hs : p.isStart = true)
    (hstop : (env.stop p
      (env.PublishResource env.KeyUpdate env.StatusUpdated t.updateId (initialNotification t)
          st.world)).1 = none) :
    (∀ e ∈ (extractLoop env p.process.Dir t.updateId t.files (initialNotification t)
      (env.stop p
        (env.PublishResource env.KeyUpdate env.StatusUpdated t.updateId (initialNotification t)
          st.world)).2).effects, e.isStart = false) ∧
    (firstError env p.process.Dir t.updateId t.files (initialNotification t)
      (env.stop p
        (env.PublishResource env.KeyUpdate env.StatusUpdated t.updateId (initialNotification t)
          st.world)).2 = none →
      (extractLoop env p.process.Dir t.updateId t.files (initialNotification t)
      (env.stop p
        (env.PublishResource env.KeyUpdate env.StatusUpdated t.updateId (initialNotification t)
          st.world)).2).ok = true ∧
      (updateTask env t st).effects
        = [.PublishResource env.KeyUpdate env.StatusUpdated t.updateId (initialNotification t),
          .stop p]
          ++ (extractLoop env p.process.Dir t.updateId t.files (initialNotification t)
      (env.stop p
        (env.PublishResource env.KeyUpdate env.StatusUpdated t.updateId (initialNotification t)
          st.world)).2).effects
          ++ [.start p,
              .PublishResource env.KeyUpdate env.StatusUpdated t.updateId
                { (extractLoop env p.process.Dir t.updateId t.files (initialNotification t)
      (env.stop p
        (env.PublishResource env.KeyUpdate env.StatusUpdated t.updateId (initialNotification t)
          st.world)).2).notification
                  with Status := .UpdateSuccess }] ∧
      (updateTask env t st).effects.filter Effect.isStart = [.start p]) ∧
    (∀ err, firstError env p.process.Dir t.updateId t.files (initialNotification t)
      (env.stop p
        (env.PublishResource env.KeyUpdate env.StatusUpdated t.updateId (initialNotification t)
          st.world)).2 = some err →
      (extractLoop env p.process.Dir t.updateId t.files (initialNotification t)
      (env.stop p
        (env.PublishResource env.KeyUpdate env.StatusUpdated t.updateId (initialNotification t)
          st.world)).2).ok = false ∧
      (extractLoop env p.process.Dir t.updateId t.files (initialNotification t)
      (env.stop p
        (env.PublishResource env.KeyUpdate env.StatusUpdated t.updateId (initialNotification t)
          st.world)).2).notification.Status = .UpdateFail ∧
      (updateTask env t st).effects
        = [.PublishResource env.KeyUpdate env.StatusUpdated t.updateId (initialNotification t),
          .stop p]
          ++ (extractLoop env p.process.Dir t.updateId t.files (initialNotification t)
      (env.stop p
        (env.PublishResource env.KeyUpdate env.StatusUpdated t.updateId (initialNotification t)
          st.world)).2).effects
          ++ [.PublishResource env.KeyUpdate env.StatusUpdated t.updateId
                (extractLoop env p.process.Dir t.updateId t.files (initialNotification t)
      (env.stop p
        (env.PublishResource env.KeyUpdate env.StatusUpdated t.updateId (initialNotification t)
          st.world)).2).notification] ∧
      ∀ e ∈ (updateTask env t st).effects, e.isStart = false) ∧
    ((extractLoop env p.process.Dir t.updateId t.files (initialNotification t)
      (env.stop p
        (env.PublishResource env.KeyUpdate env.StatusUpdated t.updateId (initialNotification t)
          st.world)).2).ok = true →
      firstError env p.process.Dir t.updateId t.files (initialNotification t)
      (env.stop p
        (env.PublishResource env.KeyUpdate env.StatusUpdated t.updateId (initialNotification t)
          st.world)).2 = none) ∧
    ((extractLoop env p.process.Dir t.updateId t.files (initialNotification t)
      (env.stop p
        (env.PublishResource env.KeyUpdate env.StatusUpdated t.updateId (initialNotification t)
          st.world)).2).ok = false →
      ∃ err, firstError env p.process.Dir t.updateId t.files (initialNotification t)
      (env.stop p
        (env.PublishResource env.KeyUpdate env.StatusUpdated t.updateId (initialNotification t)
          st.world)).2 = some err) := by
  have hnc := extractLoop_no_control env p.process.Dir t.updateId t.files (initialNotification t)
    (env.stop p
        (env.PublishResource env.KeyUpdate env.StatusUpdated t.updateId (initialNotification t)
          st.world)).2
  have hns : ∀ e ∈ (extractLoop env p.process.Dir t.updateId t.files (initialNotification t)
      (env.stop p
        (env.PublishResource env.KeyUpdate env.StatusUpdated t.updateId (initialNotification t)
          st.world)).2).effects, e.isStart = false :=
    fun e he => isStart_le_isControl e (hnc e he)
  obtain ⟨hnone, hsome⟩ := extractLoop_firstError env p.process.Dir t.updateId t.files
    (initialNotification t)
    (env.stop p
        (env.PublishResource env.KeyUpdate env.StatusUpdated t.updateId (initialNotification t)
          st.world)).2
  obtain ⟨j, _, _, _, hF⟩ := extractLoop_progress env p.process.Dir t.updateId t.files
    (initialNotification t)
    (env.stop p
        (env.PublishResource env.KeyUpdate env.StatusUpdated t.updateId (initialNotification t)
          st.world)).2
  refine ⟨hns, ?_, ?_, ?_, ?_⟩
  · intro hfe
    have hok := hnone hfe
    have heq : (updateTask env t st).effects
        = [.PublishResource env.KeyUpdate env.StatusUpdated t.updateId (initialNotification t),
          .stop p]
          ++ (extractLoop env p.process.Dir t.updateId t.files (initialNotification t)
      (env.stop p
        (env.PublishResource env.KeyUpdate env.StatusUpdated t.updateId (initialNotification t)
          st.world)).2).effects
          ++ [.start p,
              .PublishResource env.KeyUpdate env.StatusUpdated t.updateId
                { (extractLoop env p.process.Dir t.updateId t.files (initialNotification t)
      (env.stop p
        (env.PublishResource env.KeyUpdate env.StatusUpdated t.updateId (initialNotification t)
          st.world)).2).notification
                  with Status := .UpdateSuccess }] := by
      simp [updateTask, taskBody, hp, stopIfStarted, startIfStarted, hs, hstop, hok]
    refine ⟨hok, heq, ?_⟩
    have hfl := List.filter_eq_nil_iff.mpr
      (fun e he => by simp [hns e he] : ∀ e ∈ (extractLoop env p.process.Dir t.updateId t.files
        (initialNotification t) (env.stop p (env.PublishResource env.KeyUpdate
          env.StatusUpdated t.updateId (initialNotification t) st.world)).2).effects,
        ¬ (e.isStart = true))
    rw [heq]
    simp [List.filter_append, hfl, List.filter, Effect.isStart]
  · intro err hfe
    have hok := hsome err hfe
    have heq : (updateTask env t st).effects
        = [.PublishResource env.KeyUpdate env.StatusUpdated t.updateId (initialNotification t),
          .stop p]
          ++ (extractLoop env p.process.Dir t.updateId t.files (initialNotification t)
      (env.stop p
        (env.PublishResource env.KeyUpdate env.StatusUpdated t.updateId (initialNotification t)
          st.world)).2).effects
          ++ [.PublishResource env.KeyUpdate env.StatusUpdated t.updateId
                (extractLoop env p.process.Dir t.updateId t.files (initialNotification t)
      (env.stop p
        (env.PublishResource env.KeyUpdate env.StatusUpdated t.updateId (initialNotification t)
          st.world)).2).notification] := by
      simp [updateTask, taskBody, hp, stopIfStarted, hs, hstop, hok]
    refine ⟨hok, ?_, heq, ?_⟩
    · rw [(hF hok).2]
    · intro e he
      rw [heq] at he
      simp only [List.mem_append, List.mem_cons, List.mem_singleton, List.not_mem_nil,
        or_false] at he
      rcases he with ((rfl | rfl) | he) | rfl
      · rfl
      · rfl
      · exact hns e he
      · rfl
  · intro hok
    cases hfe : firstError env p.process.Dir t.updateId t.files (initialNotification t)
      (env.stop p
        (env.PublishResource env.KeyUpdate env.StatusUpdated t.updateId (initialNotification t)
          st.world)).2 with
    | none => rfl
    | some err =>
      rw [hsome err hfe] at hok
      exact Bool.noConfusion hok
  · intro hok
    cases hfe : firstError env p.process.Dir t.updateId t.files (initialNotification t)
      (env.stop p
        (env.PublishResource env.KeyUpdate env.StatusUpdated t.updateId (initialNotification t)
          st.world)).2 with
    | some err => exact ⟨err, rfl⟩
    | none =>
      rw [hnone hfe] at hok
      exact Bool.noConfusion hok

/-- The witness of C5, amended: process 1 runs and the stop succeeds; with a file system
that returns no error the one entry is extracted and start is called; with a file system
that refuses `/opt/app/a.txt` the run ends in status Fail without a call to start. -/
theorem updateTask_start_after_full_extraction_witness :
    (updateTask (sampleEnv true false false []) ⟨1, "u1", [⟨"a.txt", false, 420⟩]⟩
        ⟨⟨true, []⟩, insertUpdate ∅ 1 "u1"⟩).effects
      = [.PublishResource 9 2 "u1" ⟨.UpdateUpdating, 0, 1⟩,
          .stop ⟨⟨1, "/opt/app", true⟩, true⟩,
          .MkdirAll "/opt/app" 511,
          .Open "a.txt",
          .OpenFile "/opt/app/a.txt" 577 420,
          .Copy "/opt/app/a.txt",
          .PublishResource 9 2 "u1" ⟨.UpdateUpdating, 1, 1⟩,
          .start ⟨⟨1, "/opt/app", true⟩, true⟩,
          .PublishResource 9 2 "u1" ⟨.UpdateSuccess, 1, 1⟩] ∧
    (updateTask (sampleEnv true false false ["/opt/app/a.txt"])
        ⟨1, "u1", [⟨"a.txt", false, 420⟩]⟩ ⟨⟨true, []⟩, insertUpdate ∅ 1 "u1"⟩).effects
      = [.PublishResource 9 2 "u1" ⟨.UpdateUpdating, 0, 1⟩,
          .stop ⟨⟨1, "/opt/app", true⟩, true⟩,
          .MkdirAll "/opt/app" 511,
          .Open "a.txt",
          .OpenFile "/opt/app/a.txt" 577 420,
          .PublishResource 9 2 "u1" ⟨.UpdateFail, 0, 1⟩] ∧
    ∀ e ∈ (updateTask (sampleEnv true false false ["/opt/app/a.txt"])
        ⟨1, "u1", [⟨"a.txt", false, 420⟩]⟩ ⟨⟨true, []⟩, insertUpdate ∅ 1 "u1"⟩).effects,
      e.isStart = false :=
  ⟨((updateTask_start_after_full_extraction (sampleEnv true false false [])
      ⟨1, "u1", [⟨"a.txt", false, 420⟩]⟩ ⟨⟨true, []⟩, insertUpdate ∅ 1 "u1"⟩
      ⟨⟨1, "/opt/app", true⟩, true⟩ (by decide) rfl (by decide)).2.1 (by decide)).2.1,
    ((updateTask_start_after_full_extraction (sampleEnv true false false ["/opt/app/a.txt"])
      ⟨1, "u1", [⟨"a.txt", false, 420⟩]⟩ ⟨⟨true, []⟩, insertUpdate ∅ 1 "u1"⟩
      ⟨⟨1, "/opt/app", true⟩, true⟩ (by decide) rfl (by decide)).2.2.1
      "permission denied" (by decide)).2.2.1,
    ((updateTask_start_after_full_extraction (sampleEnv true false false ["/opt/app/a.txt"])
      ⟨1, "u1", [⟨"a.txt", false, 420⟩]⟩ ⟨⟨true, []⟩, insertUpdate ∅ 1 "u1"⟩
      ⟨⟨1, "/opt/app", true⟩, true⟩ (by decide) rfl (by decide)).2.2.1
      "permission denied" (by decide)).2.2.2⟩

/-- C6, as stated, fails: a run that extracts the one entry of its archive publishes
the counters 0, 1, 1, which do not increase strictly, and its second event, which is
not the last and has status Updating, already has `Current = Total`. -/
theorem updateTask_progress_not_strict :
    published (sampleEnv true false false []) "u1"
        (updateTask (sampleEnv true false false []) ⟨1, "u1", [⟨"a.txt", false, 420⟩]⟩
          ⟨⟨true, []⟩, insertUpdate ∅ 1 "u1"⟩).effects
      = [⟨.UpdateUpdating, 0, 1⟩, ⟨.UpdateUpdating, 1, 1⟩, ⟨.UpdateSuccess, 1, 1⟩] ∧
    ¬ List.Pairwise (fun a b => a < b)
      ((published (sampleEnv true false false []) "u1"
        (updateTask (sampleEnv true false false []) ⟨1, "u1", [⟨"a.txt", false, 420⟩]⟩
          ⟨⟨true, []⟩, insertUpdate ∅ 1 "u1"⟩).effects).map UpdateNotification.Current) := by
  decide

/-- C6, amended: the events a run publishes under its update id are, for some `k` up to
the number of entries, the events (Updating, 0), (Updating, 1), ..., (Updating, k) and
then one final event (status, k) with status Fail or Success, all with `Total` the
number of entries.  So `Current` never decreases, it increases strictly up to the last
event but one, the final event repeats the counter of the event before it, and status
Success occurs on the final event only and only with `Current = Total`. -/
theorem updateTask_progress {W : Type} (env : Env W) (t : Task) (st : State W) :
    ∃ k status, k ≤ t.files.length ∧ status ≠ UpdateStatus.UpdateUpdating ∧
      (status = UpdateStatus.UpdateSuccess → k = t.files.length) ∧
      published env t.updateId (updateTask env t st).effects
        = (List.range (k + 1)).map (fun i => ⟨.UpdateUpdating, i, t.files.length⟩)
          ++ [⟨status, k, t.files.length⟩] ∧
      List.Pairwise (fun a b => a ≤ b)
        ((published env t.updateId (updateTask env t st).effects).map
          UpdateNotification.Current) ∧
      List.Pairwise (fun a b => a < b)
        ((published env t.updateId (updateTask env t st).effects).map
          UpdateNotification.Current).dropLast := by
  obtain ⟨k, status, hk, hne, hsucc, hpub, hfin⟩ := taskBody_progress env t
    (env.PublishResource env.KeyUpdate env.StatusUpdated t.updateId (initialNotification t)
      st.world)
  have heq : published env t.updateId (updateTask env t st).effects
      = (List.range (k + 1)).map (fun i => ⟨.UpdateUpdating, i, t.files.length⟩)
        ++ [⟨status, k, t.files.length⟩] := by
    simp only [updateTask, published_append, published_publish, hpub, hfin]
    rw [List.range_succ_eq_map]
    simp [initialNotification, List.map_map, Function.comp_def, Nat.add_comm 1]
  have hcur : (published env t.updateId (updateTask env t st).effects).map
      UpdateNotification.Current = List.range (k + 1) ++ [k] := by
    rw [heq]
    simp [List.map_map, Function.comp_def]
  refine ⟨k, status, hk, hne, hsucc, heq, ?_, ?_⟩
  · rw [hcur, List.pairwise_append]
    refine ⟨?_, List.pairwise_singleton _ _, ?_⟩
    · exact (List.pairwise_lt_range (k + 1)).imp (fun h => Nat.le_of_lt h)
    · intro a ha b hb
      simp only [List.mem_singleton] at hb
      subst hb
      exact Nat.le_of_lt_succ (List.mem_range.mp ha)
  · rw [hcur, List.dropLast_concat]
    exact List.pairwise_lt_range (k + 1)

/-! ## Concurrent update requests -/

/-- C2 fails on the code: two requests for process 1 that both pass `isUpdating` before
either calls `insertUpdate` are both accepted, so two runs for process 1 are active in
one reachable state, and the guard holds the second's update id only. -/
theorem single_flight_violated :
    ∃ s, exec [(1, "a"), (1, "b")] (Guarded.initial [(1, "a"), (1, "b")])
          [.check 0, .check 1, .insert 0, .insert 1] = some s ∧
      s.pcs = [.running, .running] ∧
      activeRuns [(1, "a"), (1, "b")] s 1 = [0, 1] ∧
      s.updates.lookup 1 = some "b" :=
  ⟨_, rfl, by decide, by decide, by decide⟩

end ProcessController

namespace NotificationController

/-! ## The notification registry -/

/-- C8: a connection whose token is the token of a registered client is closed and
the registry is left as it was, so the old client stays registered and is written to by
later events; and in every state reached from the empty registry by connections and
disconnections no two registered connection ids hold the same token. -/
theorem NewConnection_duplicate_token (n : notification) (nodeId : Int) (r : Request)
    (form : Values) (token : String) (rest : List String) (old : Int) (v : node)
    (hq : r.ParseQuery = .ok form) (ht : form.lookup "token" = some (token :: rest))
    (hold : n.nodes.lookup old = some v) (hv : v.token = token) :
    NewConnection n nodeId r = (n, [Effect.WebsocketClose nodeId]) ∧
      (NewConnection n nodeId r).1.nodes.lookup old = some v ∧
      (∀ (c : Consts) (key : Int) (value : Resource),
        Handle c (NewConnection n nodeId r).1 key value = Handle c n key value) ∧
      old ∈ (NewConnection n nodeId r).1.nodes.keys ∧
      ∀ calls : List Call, TokensDistinct (run init calls) := by
  have hh : tokenHeld n token = true := hv ▸ tokenHeld_of_lookup n old v hold
  have heq := NewConnection_held n nodeId r form token rest hq ht hh
  refine ⟨heq, ?_, ?_, ?_, ?_⟩
  · rw [heq]; exact hold
  · intro c key value; rw [heq]
  · rw [heq]
    exact AList.mem_keys.mp (AList.lookup_isSome.mp (by simp [hold]))
  · intro calls
    exact TokensDistinct_run calls init TokensDistinct_init

/-- The witness of C8: connection 1 holds `tok1` and connection 2 asks for it. -/
theorem NewConnection_duplicate_token_witness :
    NewConnection (NewConnection init 1 (requestWithToken "tok1")).1 2 (requestWithToken "tok1")
        = ((NewConnection init 1 (requestWithToken "tok1")).1, [Effect.WebsocketClose 2]) ∧
      (NewConnection (NewConnection init 1 (requestWithToken "tok1")).1 2
          (requestWithToken "tok1")).1.nodes.lookup 1
        = some ⟨"tok1", requestWithToken "tok1"⟩ ∧
      (∀ (c : Consts) (key : Int) (value : Resource),
        Handle c (NewConnection (NewConnection init 1 (requestWithToken "tok1")).1 2
          (requestWithToken "tok1")).1 key value
          = Handle c (NewConnection init 1 (requestWithToken "tok1")).1 key value) ∧
      (1 : Int) ∈ (NewConnection (NewConnection init 1 (requestWithToken "tok1")).1 2
          (requestWithToken "tok1")).1.nodes.keys ∧
      ∀ calls : List Call, TokensDistinct (run init calls) :=
  NewConnection_duplicate_token (NewConnection init 1 (requestWithToken "tok1")).1 2
    (requestWithToken "tok1") [("token", ["tok1"])] "tok1" [] 1
    ⟨"tok1", requestWithToken "tok1"⟩ rfl (by decide) (by decide) rfl

/-- C9, as stated, fails: a connection whose query is `token=` (the token parameter
is present and its value is the empty string) is not closed and is registered, with the
empty token. -/
theorem NewConnection_empty_token_registered :
    (NewConnection init 7 (requestWithToken "")).2 = [] ∧
      (NewConnection init 7 (requestWithToken "")).1.nodes.lookup 7
        = some ⟨"", requestWithToken ""⟩ := by
  decide

/-- C9, amended: a connection without a token parameter (the query does not parse, has
no `token` key, or has it with no value) is closed and the registry is left as it was;
a `token` parameter whose value is the empty string is a token like any other: the
connection is registered with it unless a registered client holds the empty token. -/
theorem NewConnection_missing_token (n : notification) (nodeId : Int) (r : Request) :
    ((∀ form, r.ParseQuery = .ok form →
        form.lookup "token" = none ∨ form.lookup "token" = some []) →
      NewConnection n nodeId r = (n, [Effect.WebsocketClose nodeId])) ∧
    (∀ form rest, r.ParseQuery = .ok form → form.lookup "token" = some ("" :: rest) →
      tokenHeld n "" = false →
      NewConnection n nodeId r
        = ({ nodes := n.nodes.insert nodeId { token := "", r := r } }, [])) := by
  constructor
  · intro h
    cases hq : r.ParseQuery with
    | error e => simp [NewConnection, hq]
    | ok form =>
      rcases h form hq with hl | hl <;> simp [NewConnection, hq, hl]
  · intro form rest hq hl hh
    exact NewConnection_fresh n nodeId r form "" rest hq hl hh

/-- The witness of C9, amended: a query without a `token` key. -/
theorem NewConnection_missing_token_witness :
    NewConnection init 7 ⟨.ok [("user", ["u"])]⟩ = (init, [Effect.WebsocketClose 7]) :=
  (NewConnection_missing_token init 7 ⟨.ok [("user", ["u"])]⟩).1
    (fun form h => by
      have hf : form = [("user", ["u"])] := by
        simp only [Except.ok.injEq] at h
        exact h.symm
      subst hf
      exact Or.inl (by decide))

/-- C10: an event with the password key, or with the token key and status Created or
Updated, writes to no connection; every other event writes the JSON record of its key,
status and id to every registered connection id, once each, and to no other. -/
theorem Handle_filters_and_fans_out (c : Consts) (n : notification) (key : Int)
    (value : Resource) (hk : c.KeyToken ≠ c.KeyPassword) :
    ((key = c.KeyPassword ∨
        (key = c.KeyToken ∧
          (value.Status = c.StatusCreated ∨ value.Status = c.StatusUpdated))) →
      Handle c n key value = []) ∧
    (¬ (key = c.KeyPassword ∨
        (key = c.KeyToken ∧
          (value.Status = c.StatusCreated ∨ value.Status = c.StatusUpdated))) →
      ∃ data, Marshal ⟨key, value.Status, value.Id⟩ = .ok data ∧
        (∀ e ∈ Handle c n key value,
          ∃ nodeId, n.nodes.lookup nodeId ≠ none ∧ e = .WebsocketWriteMessage nodeId data) ∧
        (∀ nodeId, n.nodes.lookup nodeId ≠ none →
          (Handle c n key value).count (.WebsocketWriteMessage nodeId data) = 1) ∧
        (Handle c n key value).length = n.nodes.entries.length) := by
  constructor
  · rintro (h | ⟨h, hs⟩)
    · subst h
      simp [Handle, hk.symm]
    · simp [Handle, h, hs]
  · intro h
    push_neg at h
    obtain ⟨hp, ht⟩ := h
    have hH : Handle c n key value = notify n key value := by
      unfold Handle
      by_cases h1 : key = c.KeyToken
      · have h2 := ht h1
        simp [h1, h2.1, h2.2]
      · simp [h1, hp]
    refine ⟨_, rfl, ?_, ?_, ?_⟩
    · intro e he
      rw [hH] at he
      simp only [notify, Marshal, List.mem_map] at he
      obtain ⟨nodeId, hmem, rfl⟩ := he
      refine ⟨nodeId, ?_, rfl⟩
      have : nodeId ∈ n.nodes := AList.mem_keys.mpr hmem
      rw [Ne, AList.lookup_eq_none]
      exact fun h => h this
    · intro nodeId hne
      have hmem : nodeId ∈ n.nodes.keys := by
        rw [Ne, AList.lookup_eq_none, not_not] at hne
        exact AList.mem_keys.mp hne
      have hinj : ∀ data : String, Function.Injective
          (fun nodeId : Int => Effect.WebsocketWriteMessage nodeId data) := by
        intro data a b h
        injection h
      rw [hH]
      simp only [notify, Marshal]
      rw [List.count_map_of_injective _ _ (hinj _)]
      exact List.count_eq_one_of_mem n.nodes.keys_nodup hmem
    · rw [hH]
      simp [notify, Marshal, AList.keys, List.keys]

/-- The witness of C10: token key 1, password key 2, two registered connections; an
event with the password key, then an event with another key. -/
theorem Handle_filters_and_fans_out_witness :
    Handle ⟨1, 2, 10, 11⟩ (NewConnection (NewConnection init 1 (requestWithToken "a")).1 2
        (requestWithToken "b")).1 2 ⟨12, "x"⟩ = [] ∧
    ∃ data, Marshal ⟨3, 12, "x"⟩ = .ok data ∧
      (∀ e ∈ Handle ⟨1, 2, 10, 11⟩ (NewConnection (NewConnection init 1
          (requestWithToken "a")).1 2 (requestWithToken "b")).1 3 ⟨12, "x"⟩,
        ∃ nodeId, (NewConnection (NewConnection init 1 (requestWithToken "a")).1 2
            (requestWithToken "b")).1.nodes.lookup nodeId ≠ none ∧
          e = .WebsocketWriteMessage nodeId data) ∧
      (∀ nodeId, (NewConnection (NewConnection init 1 (requestWithToken "a")).1 2
          (requestWithToken "b")).1.nodes.lookup nodeId ≠ none →
        (Handle ⟨1, 2, 10, 11⟩ (NewConnection (NewConnection init 1
          (requestWithToken "a")).1 2 (requestWithToken "b")).1 3 ⟨12, "x"⟩).count
          (.WebsocketWriteMessage nodeId data) = 1) ∧
      (Handle ⟨1, 2, 10, 11⟩ (NewConnection (NewConnection init 1
          (requestWithToken "a")).1 2 (requestWithToken "b")).1 3 ⟨12, "x"⟩).length
        = (NewConnection (NewConnection init 1 (requestWithToken "a")).1 2
            (requestWithToken "b")).1.nodes.entries.length :=
  ⟨(Handle_filters_and_fans_out ⟨1, 2, 10, 11⟩
      (NewConnection (NewConnection init 1 (requestWithToken "a")).1 2
        (requestWithToken "b")).1 2 ⟨12, "x"⟩ (by decide)).1 (Or.inl rfl),
    (Handle_filters_and_fans_out ⟨1, 2, 10, 11⟩
      (NewConnection (NewConnection init 1 (requestWithToken "a")).1 2
        (requestWithToken "b")).1 3 ⟨12, "x"⟩ (by decide)).2 (by decide)⟩

/-- An event that is not filtered, evaluated: both registered connections get the
record. -/
theorem Handle_sample :
    Handle ⟨1, 2, 10, 11⟩ (NewConnection (NewConnection init 1 (requestWithToken "a")).1 2
        (requestWithToken "b")).1 3 ⟨12, "x"⟩
      = [.WebsocketWriteMessage 2 "\x7b\"key\":3,\"status\":12,\"id\":\"x\"\x7d",
          .WebsocketWriteMessage 1 "\x7b\"key\":3,\"status\":12,\"id\":\"x\"\x7d"] := by
  decide

end NotificationController

